import Mathlib

/-!
# Verification of the session-replayer capture → repair → remap → recompress → dispatch pipeline

Shallow embedding of the core of `replay-new-session.js` (the `PostHogSessionReplay`
class) and of the capture-side `decompressNestedSnapshots` helper of the proxy.

Modelling conventions:
* JS strings appear in two roles.  Identifier-valued fields (`$session_id`,
  `distinct_id`, …) are `String`.  Snapshot `data` strings, whose individual
  UTF-16 code units matter for the compression round trip, are `List Nat`
  (one entry per code unit).
* An absent (`undefined`) field is `none`; JS string truthiness (`""` is falsy)
  is `truthyStr`.
* `zlib.gzipSync` / `zlib.gunzipSync` and the `utf8` codec of `Buffer` are
  external to the repository; they are parameters of the definitions that call
  them, and the theorems that need their algebra take it as hypotheses.
  A `gzipSync` call that throws is a `none` result.
* ISO timestamp strings (`new Date(t).toISOString()`) are modelled by the
  millisecond instant `t : Int` they denote.
-/

/-- JS truthiness of an optional string field (`undefined` and `""` are falsy). -/
def truthyStr : Option String → Bool
  | none => false
  | some s => s ≠ ""

/-! ## DOM nodes and DOM repair (`fixNodeAttributes`, `fixDOMNodeAttributes`,
`ensureDOMAttributesExist`) -/

/-- A DOM node of a snapshot tree: the fields read by the repair code.
`attributes = none` models an `undefined` attributes container;
`childNodes = none` models an absent/non-array `childNodes` field. -/
inductive DomNode : Type where
  | mk (type : Option Int) (attributes : Option (List (String × String)))
       (childNodes : Option (List DomNode))

/-- `node.type` -/
def DomNode.type : DomNode → Option Int
  | .mk t _ _ => t

/-- `node.attributes` -/
def DomNode.attributes : DomNode → Option (List (String × String))
  | .mk _ a _ => a

/-- `node.childNodes` -/
def DomNode.childNodes : DomNode → Option (List DomNode)
  | .mk _ _ c => c

mutual

/-- `fixNodeAttributes(node)`: give element nodes (`type === 2`) without an
`attributes` container an empty one, and recurse into `childNodes` when that
field holds an array. -/
def fixNodeAttributes : DomNode → DomNode
  | .mk t a c =>
    .mk t (if t = some 2 ∧ a = none then some [] else a) (fixChildField c)

/-- The repair of the `childNodes` field: absent fields stay absent, arrays are
repaired elementwise (`node.childNodes.forEach(child => fixNodeAttributes(child))`). -/
def fixChildField : Option (List DomNode) → Option (List DomNode)
  | none => none
  | some cs => some (fixNodeList cs)

/-- Elementwise repair of a `childNodes` array. -/
def fixNodeList : List DomNode → List DomNode
  | [] => []
  | n :: ns => fixNodeAttributes n :: fixNodeList ns

end

mutual

/-- Auxiliary: repairing a repaired node changes nothing. -/
theorem fixNode_idem_aux : (n : DomNode) →
    fixNodeAttributes (fixNodeAttributes n) = fixNodeAttributes n
  | .mk t a c => by
    simp only [fixNodeAttributes, fixChild_idem_aux c]
    by_cases h : t = some 2 ∧ a = none <;> simp [h]

/-- Auxiliary: repairing a repaired `childNodes` field changes nothing. -/
theorem fixChild_idem_aux : (c : Option (List DomNode)) →
    fixChildField (fixChildField c) = fixChildField c
  | none => rfl
  | some cs => by simp only [fixChildField, fixList_idem_aux cs]

/-- Auxiliary: repairing a repaired child array changes nothing. -/
theorem fixList_idem_aux : (l : List DomNode) →
    fixNodeList (fixNodeList l) = fixNodeList l
  | [] => rfl
  | n :: ns => by simp only [fixNodeList, fixNode_idem_aux n, fixList_idem_aux ns]

end

mutual

/-- `nodeFullyFixed n = true` iff every node of element type (`type === 2`)
in the tree rooted at `n` has a defined `attributes` container. -/
def nodeFullyFixed : DomNode → Bool
  | .mk t a c => (if t = some 2 then a.isSome else true) && childFieldFixed c

/-- `nodeFullyFixed` over an optional `childNodes` field. -/
def childFieldFixed : Option (List DomNode) → Bool
  | none => true
  | some cs => nodeListFixed cs

/-- `nodeFullyFixed` over a child array. -/
def nodeListFixed : List DomNode → Bool
  | [] => true
  | n :: ns => nodeFullyFixed n && nodeListFixed ns

end

mutual

/-- Auxiliary: after repair every element node in the tree has attributes. -/
theorem fixNode_fixes_aux : (n : DomNode) → nodeFullyFixed (fixNodeAttributes n) = true
  | .mk t a c => by
    simp only [fixNodeAttributes, nodeFullyFixed, fixChild_fixes_aux c, Bool.and_true]
    by_cases h : t = some 2 ∧ a = none <;> by_cases h2 : t = some 2 <;>
      simp_all [Option.isSome]
    cases a <;> simp_all

/-- Auxiliary: after repair of a `childNodes` field every element node below has attributes. -/
theorem fixChild_fixes_aux : (c : Option (List DomNode)) →
    childFieldFixed (fixChildField c) = true
  | none => rfl
  | some cs => by simp only [fixChildField, childFieldFixed, fixList_fixes_aux cs]

/-- Auxiliary: after repair of a child array every element node below has attributes. -/
theorem fixList_fixes_aux : (l : List DomNode) → nodeListFixed (fixNodeList l) = true
  | [] => rfl
  | n :: ns => by
    simp only [fixNodeList, nodeListFixed, fixNode_fixes_aux n, fixList_fixes_aux ns,
      Bool.and_self]

end

/-! ## Snapshot events (`$snapshot_data` entries) -/

/-- The JS value held in a snapshot's `data` field.
`str cu` is a JS string given by its code units (for a string that holds
compressed bytes these are the byte values); `obj node` is an already-parsed
object, of which the repair code only reads the `node` field. -/
inductive SnapData : Type where
  | str (codeUnits : List Nat)
  | obj (node : Option DomNode)

/-- One entry of a `$snapshot_data` array: the fields the pipeline reads.
`original_compressed` models the presence of the `_original_compressed` marker,
`decompression_error` the presence of `_decompression_error`. -/
structure Snapshot : Type where
  type : Option Int
  data : Option SnapData
  timestamp : Int
  original_compressed : Bool
  decompression_error : Bool

/-- JS truthiness of a snapshot's `data` field (an `undefined` field and the
empty string are falsy, every object is truthy). -/
def snapDataTruthy : Option SnapData → Bool
  | none => false
  | some (.str cu) => cu ≠ []
  | some (.obj _) => true

/-- `fixDOMNodeAttributes(data)`.  For an object, the repair mutates
`domData.node` in place.  For a string, `JSON.parse` builds a fresh temporary
value; the repair mutates only that temporary, which is then discarded, so the
stored string is returned unchanged (this also covers the catch-and-warn path
for unparseable strings). -/
def fixDOMNodeAttributes : SnapData → SnapData
  | .str cu => .str cu
  | .obj none => .obj none
  | .obj (some n) => .obj (some (fixNodeAttributes n))

/-- The body of `ensureDOMAttributesExist` for one snapshot: repair fires only
when `snapshot.type === 2 && snapshot.data` (JS truthiness). -/
def ensureSnapshot (s : Snapshot) : Snapshot :=
  if s.type = some 2 ∧ snapDataTruthy s.data then
    { s with data := s.data.map fixDOMNodeAttributes }
  else s

/-! ## Capture-side decompression and replay-side recompression of nested blobs

`zlib.gzipSync` / `zlib.gunzipSync` and the UTF-8 codec of `Buffer` are
external; they are passed in as functions.  A call that throws is `none`. -/

/-- `Buffer.from(s, "latin1")`: each UTF-16 code unit is truncated to a byte. -/
def latin1Encode (codeUnits : List Nat) : List Nat :=
  codeUnits.map (· % 256)

/-- `buffer.toString("latin1")`: each byte (always `< 256`) becomes the code
unit of the same value. -/
def latin1Decode (bytes : List Nat) : List Nat :=
  bytes

/-- The body of `recompressNestedSnapshots` for one snapshot
(`replay-new-session.js`): when `snapshot.type === 2 &&
snapshot._original_compressed && typeof snapshot.data === "string"`,
re-gzip the UTF-8 bytes of the string, store the result latin1-decoded, and
remove the `_original_compressed` marker.  If `gzipSync` throws, only a
warning is printed and the snapshot is left unchanged. -/
def recompressSnapshot (gzip : List Nat → Option (List Nat))
    (utf8Encode : List Nat → List Nat) (s : Snapshot) : Snapshot :=
  match s.data with
  | some (.str cu) =>
    if s.type = some 2 ∧ s.original_compressed then
      match gzip (utf8Encode cu) with
      | some out => { s with data := some (.str (latin1Decode out)),
                             original_compressed := false }
      | none => s
    else s
  | _ => s

/-- The body of capture-side `decompressNestedSnapshots` (proxy) for one
snapshot: when `snapshot.type === 2 && typeof snapshot.data === "string"` and
the string starts with the gzip magic bytes 31, 139 (and has length `> 2`),
gunzip its latin1 bytes, store the UTF-8 decoding, and set
`_original_compressed`.  If decompression throws, the snapshot is annotated
with `_decompression_error` instead. -/
def decompressSnapshot (gunzip : List Nat → Option (List Nat))
    (utf8Decode : List Nat → List Nat) (s : Snapshot) : Snapshot :=
  match s.data with
  | some (.str cu) =>
    if s.type = some 2 then
      if 2 < cu.length ∧ cu.getD 0 0 = 31 ∧ cu.getD 1 0 = 139 then
        match gunzip (latin1Encode cu) with
        | some bytes => { s with data := some (.str (utf8Decode bytes)),
                                 original_compressed := true }
        | none => { s with decompression_error := true }
      else s
    else s
  | _ => s

/-! ## Recording event chunks and `modifyAndRecompress` -/

/-- The `properties` object of a recording event chunk: the fields the replay
pipeline reads or writes.  `is_identified` is the truthiness of
`$is_identified`. -/
structure Properties : Type where
  session_id : Option String
  window_id : Option String
  is_identified : Bool
  distinct_id : Option String
  snapshot_data : Option (List Snapshot)

/-- One element of a recording's decompressed array. -/
structure EventChunk : Type where
  properties : Option Properties
  timestamp : Option Int

/-- One line of `<id>-recordings.jsonl` as read by `replaySession`:
`decompressed = none` models a record whose `decompressed` field is absent or
not an array. -/
structure Recording : Type where
  decompressed : Option (List EventChunk)

/-- The replay configuration fields the remapping code uses:
`sessionId` is the caller-chosen target session id, `userId` the target user
id, `anonId` the run's single `crypto.randomUUID()` anonymous id generated in
the constructor, `timestamp` the run's target instant. -/
structure ReplayConfig : Type where
  sessionId : String
  userId : String
  anonId : String
  timestamp : Int

/-- `ensureDOMAttributesExist` for one chunk: walk
`event.properties.$snapshot_data` when both are present. -/
def ensureChunk (c : EventChunk) : EventChunk :=
  match c.properties with
  | some p =>
    match p.snapshot_data with
    | some snaps =>
      { c with properties := some ({ p with snapshot_data := some (snaps.map ensureSnapshot) }) }
    | none => c
  | none => c

/-- `ensureDOMAttributesExist(events)`. -/
def ensureDOMAttributesExist (events : List EventChunk) : List EventChunk :=
  events.map ensureChunk

/-- `recompressNestedSnapshots` for one chunk. -/
def recompressChunk (gzip : List Nat → Option (List Nat))
    (utf8Encode : List Nat → List Nat) (c : EventChunk) : EventChunk :=
  match c.properties with
  | some p =>
    match p.snapshot_data with
    | some snaps =>
      { c with
        properties := some { p with
          snapshot_data := some (snaps.map (recompressSnapshot gzip utf8Encode)) } }
    | none => c
  | none => c

/-- `recompressNestedSnapshots(events)`. -/
def recompressNestedSnapshots (gzip : List Nat → Option (List Nat))
    (utf8Encode : List Nat → List Nat) (events : List EventChunk) : List EventChunk :=
  events.map (recompressChunk gzip utf8Encode)

/-- The per-chunk modification loop of `modifyAndRecompress`: substitute the
session and window ids when the originals are truthy, replace `distinct_id` by
the target user id for identified events and by the run's anonymous id
otherwise, and shift every nested snapshot timestamp by the hard-coded
86400000 ms. -/
def modifyChunk (cfg : ReplayConfig) (newSessionId newWindowId : String)
    (c : EventChunk) : EventChunk :=
  match c.properties with
  | none => c
  | some p =>
    let p1 := if truthyStr p.session_id then { p with session_id := some newSessionId } else p
    let p2 := if truthyStr p1.window_id then { p1 with window_id := some newWindowId } else p1
    let p3 := { p2 with distinct_id := some (if p2.is_identified then cfg.userId else cfg.anonId) }
    let p4 :=
      match p3.snapshot_data with
      | some snaps =>
        { p3 with
          snapshot_data := some (snaps.map (fun s => { s with timestamp := s.timestamp - 86400000 })) }
      | none => p3
    { c with properties := some p4 }

/-! ## The per-run identity mapping (`newSessionIdMap` / `newWindowIdMap`)

A JS `Map` keyed by the (possibly `undefined`) original id, in insertion
order. -/

/-- The per-run identity mapping: a JS `Map` as an insertion-ordered
association list.  A key may be `none` (`undefined`). -/
abbrev IdMap : Type := List (Option String × String)

/-- `map.has(k)` -/
def mapHas (m : IdMap) (k : Option String) : Bool :=
  m.any (fun e => e.1 = k)

/-- `map.get(k)` (`none` = `undefined`) -/
def mapGet (m : IdMap) (k : Option String) : Option String :=
  (m.find? (fun e => e.1 = k)).map (·.2)

/-- `map.set(k, v)`: update in place if the key exists, else append. -/
def mapSet (m : IdMap) (k : Option String) (v : String) : IdMap :=
  if mapHas m k then m.map (fun e => if e.1 = k then (k, v) else e) else m ++ [(k, v)]

/-- The identifiers object returned by `modifyAndRecompress`. -/
structure ModIdentifiers : Type where
  newSessionId : String
  newWindowId : String
  originalUserId : Option String
  originalSessionId : Option String

/-- The result of a successful `modifyAndRecompress` call, together with the
states of the two (mutated) run-level maps.  The final top-level
`zlib.gzipSync(JSON.stringify(chunks))` only re-serializes `chunks`; the
claims are about the chunk contents, so the byte field is not modelled. -/
structure ModResult : Type where
  chunks : List EventChunk
  identifiers : ModIdentifiers
  sessionMap : IdMap
  windowMap : IdMap

/-- The original `$session_id` of the first element of a recording's
decompressed array (`originalRecording.decompressed[0]?.properties?.$session_id`). -/
def firstSessionId (r : Recording) : Option String :=
  ((r.decompressed.bind List.head?).bind (·.properties)).bind (·.session_id)

/-- The original `$window_id` of the first element of a recording's
decompressed array. -/
def firstWindowId (r : Recording) : Option String :=
  ((r.decompressed.bind List.head?).bind (·.properties)).bind (·.window_id)

/-- Whether reading `originalRecording?.decompressed[0]?.properties?.$snapshot_data[0]?.timestamp`
throws.  The optional guards cover a missing first element and a nullish
`properties`, each of which short-circuits the whole chain to `undefined`,
but there is no guard between `$snapshot_data` and `[0]`: a present
`properties` object with a nullish `$snapshot_data` makes the index access
throw a TypeError. -/
def firstSnapshotIndexThrows (originalEvent : Option EventChunk) : Bool :=
  match originalEvent.bind (·.properties) with
  | some p => p.snapshot_data.isNone
  | none => false

/-- `modifyAndRecompress(originalRecording, newSessionIdMap, newWindowIdMap)`.
`freshWindowId` stands for the `crypto.randomUUID()` drawn for a new window
id.  A missing/non-array `decompressed` throws; the unguarded
`$snapshot_data[0]` read of the dead `originalTimestamp` assignment throws a
TypeError — before any map insertion — when the first chunk has properties
but no `$snapshot_data`. -/
def modifyAndRecompress (cfg : ReplayConfig) (gzip : List Nat → Option (List Nat))
    (utf8Encode : List Nat → List Nat) (freshWindowId : String) (r : Recording)
    (sMap wMap : IdMap) : Except String ModResult :=
  match r.decompressed with
  | none => .error "No decompressed data found in recording"
  | some chunks0 =>
    let originalEvent := chunks0.head?
    let originalUserId := (originalEvent.bind (·.properties)).bind (·.distinct_id)
    let originalSessionId := (originalEvent.bind (·.properties)).bind (·.session_id)
    let originalWindowId := (originalEvent.bind (·.properties)).bind (·.window_id)
    if firstSnapshotIndexThrows originalEvent then
      .error "TypeError: Cannot read properties of undefined (reading 0)"
    else
      let sMap1 := if mapHas sMap originalSessionId then sMap
                   else mapSet sMap originalSessionId cfg.sessionId
      let wMap1 := if mapHas wMap originalWindowId then wMap
                   else mapSet wMap originalWindowId freshWindowId
      let newSessionId := (mapGet sMap1 originalSessionId).getD ""
      let newWindowId := (mapGet wMap1 originalWindowId).getD ""
      let chunks1 := ensureDOMAttributesExist chunks0
      let chunks2 := recompressNestedSnapshots gzip utf8Encode chunks1
      let chunks3 := chunks2.map (modifyChunk cfg newSessionId newWindowId)
      .ok { chunks := chunks3,
            identifiers := { newSessionId := newSessionId, newWindowId := newWindowId,
                             originalUserId := originalUserId,
                             originalSessionId := originalSessionId },
            sessionMap := sMap1, windowMap := wMap1 }

/-! ## Correlated application events (`loadAndModifyEvents`) -/

/-- The `properties` object of an application event: the fields
`loadAndModifyEvents` reads or writes. -/
structure AppProps : Type where
  session_id : Option String
  is_identified : Bool
  distinct_id : Option String
  lib : Option String
  lib_version : Option String

/-- One application event from `events.jsonl`.  `timestamp` is the instant the
event's ISO timestamp string denotes; `uuid` and `offset` are the fields the
code deletes. -/
structure AppEvent : Type where
  properties : Option AppProps
  timestamp : Option Int
  uuid : Option String
  offset : Option Int

/-- The `data` field of one `events.jsonl` line: a single event or a batch
array (`if (!Array.isArray(eventData)) eventData = [eventData]`). -/
inductive EntryData : Type where
  | single (e : AppEvent)
  | array (es : List AppEvent)

/-- The array-normalization of an entry's data. -/
def normalizeEntryData : EntryData → List AppEvent
  | .single e => [e]
  | .array es => es

/-- One line of `events.jsonl` (a line without a `data` field is skipped). -/
structure EventLogEntry : Type where
  data : Option EntryData

/-- The per-event body of `loadAndModifyEvents`: an event is kept only when
`event.properties?.$session_id` is truthy and strictly equals the original
session id being replayed.  A kept event is cloned and gets the new session
id, the target/anonymous `distinct_id`, the single batch timestamp
`new Date(config.timestamp).toISOString()` (modelled by the instant
`cfg.timestamp`), its `uuid` and `offset` deleted, and the replay library
markers (`nowIso` stands for `new Date().toISOString()`). -/
def processAppEvent (cfg : ReplayConfig) (originalSessionId : Option String)
    (newSessionId : String) (nowIso : String) (ev : AppEvent) : Option AppEvent :=
  match ev.properties with
  | none => none
  | some p =>
    match p.session_id with
    | none => none
    | some sid =>
      if sid = "" then none
      else if some sid = originalSessionId then
        let m :=
          if truthyStr p.session_id then
            { ev with
              properties := some { p with
                session_id := some newSessionId,
                distinct_id := some (if p.is_identified then cfg.userId else cfg.anonId) } }
          else ev
        let m := { m with timestamp := some cfg.timestamp, uuid := none, offset := none }
        let m := { m with
          properties := m.properties.map (fun q =>
            { q with lib := some "posthog-session-replay", lib_version := some nowIso }) }
        some m
      else none

/-- The pure core of `loadAndModifyEvents(originalSessionId, newSessionId)`:
collect the modified events matching the original session over all entries of
`events.jsonl`; `none` when no event matched (the function returns `null`,
and the batch is then not dispatched). -/
def loadAndModifyEvents (cfg : ReplayConfig) (entries : List EventLogEntry)
    (originalSessionId : Option String) (newSessionId : String) (nowIso : String) :
    Option (List AppEvent) :=
  let all := entries.flatMap (fun entry =>
    match entry.data with
    | none => []
    | some d => (normalizeEntryData d).filterMap
        (processAppEvent cfg originalSessionId newSessionId nowIso))
  if all.isEmpty then none else some all

/-! ## The replay run (`replaySession`) and its dispatch order

`replaySession` is I/O-bound: it reads the two capture logs, then loops over
the recordings.  The embedding takes the parsed logs as inputs, threads the
two identity maps exactly as the loop does, and additionally records the
trace of pipeline actions in execution order.  `sendEventsToPostHog` fires
its network call without awaiting it inside a local catch, so it can never
fail the run; `sendToPostHog` rejects on a non-2xx status, which the
surrounding try/catch of `replaySession` logs and rethrows. -/

/-- An observable dispatch-pipeline action of a replay run, tagged with the
index of the recording being processed. -/
inductive RAction : Type where
  | recompress (i : Nat)
  | dispatchEvents (i : Nat) (originalSessionId : Option String)
  | dispatchRecording (i : Nat)
deriving DecidableEq

/-- The recording index an action belongs to. -/
def RAction.recIdx : RAction → Nat
  | .recompress i => i
  | .dispatchEvents i _ => i
  | .dispatchRecording i => i

/-- `sendToPostHog`: in dry-run mode the call is skipped (`undefined`);
otherwise a 2xx response resolves with its status and a non-2xx response
rejects with an `HTTP <status>` error. -/
def sendToPostHog (dryRun : Bool) (status : Nat) : Except String (Option Nat) :=
  if dryRun then .ok none
  else if 200 ≤ status ∧ status < 300 then .ok (some status)
  else .error ("HTTP " ++ toString status)

/-- The event-dispatch loop of `replaySession` for recording `i`: iterate the
session map entries in insertion order and dispatch a batch for every entry
whose `loadAndModifyEvents` found events. -/
def eventsDispatchTrace (cfg : ReplayConfig) (entries : List EventLogEntry)
    (nowIso : String) (i : Nat) (sMap : IdMap) : List RAction :=
  sMap.flatMap (fun e =>
    match loadAndModifyEvents cfg entries e.1 e.2 nowIso with
    | some _ => [RAction.dispatchEvents i e.1]
    | none => [])

/-- The body of the `replaySession` loop for one recording (paired with its
fresh window id and the HTTP status its dispatch would receive):
modify-and-recompress, then dispatch correlated events for every session in
the run map, then dispatch the recording itself. -/
def processRecording (cfg : ReplayConfig) (gzip : List Nat → Option (List Nat))
    (utf8Encode : List Nat → List Nat) (entries : List EventLogEntry) (nowIso : String)
    (dryRun : Bool) (i : Nat) (rc : Recording × String × Nat) (sMap wMap : IdMap) :
    Except String (IdMap × IdMap × Option Nat) × List RAction :=
  match modifyAndRecompress cfg gzip utf8Encode rc.2.1 rc.1 sMap wMap with
  | .error e => (.error e, [])
  | .ok out =>
    let evTrace := eventsDispatchTrace cfg entries nowIso i out.sessionMap
    match sendToPostHog dryRun rc.2.2 with
    | .ok resp => (.ok (out.sessionMap, out.windowMap, resp),
                   RAction.recompress i :: evTrace ++ [RAction.dispatchRecording i])
    | .error e => (.error e,
                   RAction.recompress i :: evTrace ++ [RAction.dispatchRecording i])

/-- The `replaySession` loop over the remaining recordings, starting at index
`i` with map states `sMap`, `wMap`.  Any error propagates (the catch block
rethrows), ending the run; the collected recording responses are returned on
success. -/
def replayGo (cfg : ReplayConfig) (gzip : List Nat → Option (List Nat))
    (utf8Encode : List Nat → List Nat) (entries : List EventLogEntry) (nowIso : String)
    (dryRun : Bool) : List (Recording × String × Nat) → Nat → IdMap → IdMap →
    Except String (List (Option Nat)) × List RAction
  | [], _, _, _ => (.ok [], [])
  | rc :: rest, i, sMap, wMap =>
    match processRecording cfg gzip utf8Encode entries nowIso dryRun i rc sMap wMap with
    | (.error e, tr) => (.error e, tr)
    | (.ok (s1, w1, resp), tr) =>
      match replayGo cfg gzip utf8Encode entries nowIso dryRun rest (i + 1) s1 w1 with
      | (.error e, tr2) => (.error e, tr ++ tr2)
      | (.ok resps, tr2) => (.ok (resp :: resps), tr ++ tr2)

/-- `replaySession({dryRun})`: process all recordings with initially empty
identity maps. -/
def replaySession (cfg : ReplayConfig) (gzip : List Nat → Option (List Nat))
    (utf8Encode : List Nat → List Nat) (entries : List EventLogEntry) (nowIso : String)
    (dryRun : Bool) (recordings : List (Recording × String × Nat)) :
    Except String (List (Option Nat)) × List RAction :=
  replayGo cfg gzip utf8Encode entries nowIso dryRun recordings 0 [] []

/-! ## Observations used by the claim statements -/

/-- All element nodes reachable in the DOM content of a snapshot `data` value,
reading a string through the given `JSON.parse` (`jsonParse cu = some d` means
the string with code units `cu` parses to an object whose `node` field is `d`;
`none` means parsing throws). -/
def snapDataNodesFixed (jsonParse : List Nat → Option (Option DomNode)) :
    SnapData → Bool
  | .str cu =>
    match jsonParse cu with
    | some (some n) => nodeFullyFixed n
    | _ => true
  | .obj none => true
  | .obj (some n) => nodeFullyFixed n

/-- Every element node reachable in a snapshot (over the domain the repair
walks: `type === 2` snapshots with truthy data) has a defined attributes
container, including nodes inside string-valued `data`. -/
def snapshotNodesFixed (jsonParse : List Nat → Option (Option DomNode))
    (s : Snapshot) : Bool :=
  if s.type = some 2 ∧ snapDataTruthy s.data then
    match s.data with
    | some d => snapDataNodesFixed jsonParse d
    | none => true
  else true

/-- `snapshotNodesFixed` over one event chunk. -/
def chunkNodesFixed (jsonParse : List Nat → Option (Option DomNode))
    (c : EventChunk) : Bool :=
  match c.properties with
  | some p =>
    match p.snapshot_data with
    | some snaps => snaps.all (snapshotNodesFixed jsonParse)
    | none => true
  | none => true

/-- `snapshotNodesFixed` over a whole event tree. -/
def eventsNodesFixed (jsonParse : List Nat → Option (Option DomNode))
    (events : List EventChunk) : Bool :=
  events.all (chunkNodesFixed jsonParse)

/-- Like `snapshotNodesFixed`, but only for snapshots whose `data` is an
already-parsed object (string-valued `data` is exempt). -/
def snapshotObjNodesFixed (s : Snapshot) : Bool :=
  if s.type = some 2 ∧ snapDataTruthy s.data then
    match s.data with
    | some (.obj (some n)) => nodeFullyFixed n
    | _ => true
  else true

/-- `snapshotObjNodesFixed` over one event chunk. -/
def chunkObjNodesFixed (c : EventChunk) : Bool :=
  match c.properties with
  | some p =>
    match p.snapshot_data with
    | some snaps => snaps.all snapshotObjNodesFixed
    | none => true
  | none => true

/-- `snapshotObjNodesFixed` over a whole event tree. -/
def eventsObjNodesFixed (events : List EventChunk) : Bool :=
  events.all chunkObjNodesFixed

/-! ## C9 -/

/-- C9: DOM repair is idempotent — for every DOM tree `T`,
`repair(repair(T)) == repair(T)`; repairing an already-repaired tree changes
nothing. -/
theorem c9_dom_repair_idempotent (T : DomNode) :
    fixNodeAttributes (fixNodeAttributes T) = fixNodeAttributes T :=
  fixNode_idem_aux T

/-! ## C8 -/

/-- A bare element node without an attributes container. -/
def c8Node : DomNode := .mk (some 2) none none

/-- A concrete `JSON.parse`: the string with code units `[42]` parses to an
object whose `node` field is `c8Node`. -/
def c8Parse : List Nat → Option (Option DomNode) :=
  fun cu => if cu = [42] then some (some c8Node) else none

/-- A type-2 snapshot whose `data` field is the JSON string `[42]`. -/
def c8Snapshot : Snapshot :=
  { type := some 2, data := some (.str [42]), timestamp := 0,
    original_compressed := false, decompression_error := false }

/-- An event whose only snapshot carries string-valued DOM data. -/
def c8Chunk : EventChunk :=
  { properties := some
      { session_id := some "s", window_id := some "w", is_identified := false,
        distinct_id := some "u", snapshot_data := some [c8Snapshot] },
    timestamp := some 0 }

/-- C8 counterexample: after running DOM repair (`ensureDOMAttributesExist`)
on an event tree whose snapshot `data` is a JSON *string* encoding a bare
element node, that node still has no attributes container:
`fixDOMNodeAttributes` parses the string into a temporary value, repairs only
the temporary, and never writes it back. -/
theorem c8_string_data_not_repaired :
    eventsNodesFixed c8Parse (ensureDOMAttributesExist [c8Chunk]) = false := by
  rfl

/-- Auxiliary: `ensureSnapshot` establishes `snapshotObjNodesFixed` — the
repair fires exactly on the predicate's domain and fixes the object tree. -/
theorem ensureSnapshot_objFixed (s : Snapshot) :
    snapshotObjNodesFixed (ensureSnapshot s) = true := by
  obtain ⟨t, d, ts, oc, de⟩ := s
  cases d with
  | none => simp [ensureSnapshot, snapshotObjNodesFixed, snapDataTruthy]
  | some sd =>
    cases sd with
    | str cu =>
      by_cases hcu : cu = []
      · subst hcu
        simp [ensureSnapshot, snapshotObjNodesFixed, snapDataTruthy]
      · by_cases ht : t = some 2
        · subst ht
          simp [ensureSnapshot, snapshotObjNodesFixed, snapDataTruthy,
            fixDOMNodeAttributes, hcu]
        · simp [ensureSnapshot, snapshotObjNodesFixed, snapDataTruthy, ht]
    | obj onode =>
      by_cases ht : t = some 2
      · subst ht
        cases onode with
        | none =>
          simp [ensureSnapshot, snapshotObjNodesFixed, snapDataTruthy,
            fixDOMNodeAttributes]
        | some n =>
          simp [ensureSnapshot, snapshotObjNodesFixed, snapDataTruthy,
            fixDOMNodeAttributes, fixNode_fixes_aux n]
      · simp [ensureSnapshot, snapshotObjNodesFixed, snapDataTruthy, ht]

/-- Auxiliary: `ensureChunk` establishes `chunkObjNodesFixed`. -/
theorem ensureChunk_objFixed (c : EventChunk) :
    chunkObjNodesFixed (ensureChunk c) = true := by
  obtain ⟨props, ts⟩ := c
  cases props with
  | none => simp [ensureChunk, chunkObjNodesFixed]
  | some p =>
    obtain ⟨sid, wid, iid, did, sdata⟩ := p
    cases sdata with
    | none => simp [ensureChunk, chunkObjNodesFixed]
    | some snaps =>
      simp only [ensureChunk, chunkObjNodesFixed, List.all_eq_true, List.mem_map]
      rintro s ⟨s0, _, rfl⟩
      exact ensureSnapshot_objFixed s0

/-- C8 (amended): after running DOM repair on any event tree, every element
node reachable through a type-2 snapshot whose `data` field is an
already-parsed object has a defined attributes container; string-valued
`data` is left unchanged (its repair is applied to a discarded parse). -/
theorem c8_object_data_repaired (events : List EventChunk) :
    eventsObjNodesFixed (ensureDOMAttributesExist events) = true := by
  simp only [eventsObjNodesFixed, ensureDOMAttributesExist, List.all_eq_true, List.mem_map]
  rintro c ⟨c0, _, rfl⟩
  exact ensureChunk_objFixed c0

/-! ## C4 -/

/-- Auxiliary: truncating bytes that are already bytes is the identity. -/
theorem latin1Encode_of_lt (out : List Nat) (h : ∀ b ∈ out, b < 256) :
    latin1Encode out = out := by
  unfold latin1Encode
  induction out with
  | nil => rfl
  | cons b bs ih =>
    simp only [List.map_cons, List.cons.injEq]
    exact ⟨Nat.mod_eq_of_lt (h b (by simp)), ih (fun x hx => h x (by simp [hx]))⟩

/-- C4: for a nested snapshot blob flagged `_original_compressed` (gzip data
that capture decompressed to a UTF-8 string), recompressing it for replay and
then decompressing the result with the capture-side convention (latin1 byte
encoding, gzip) restores the snapshot exactly: `decompress(recompress(x)) == x`.
The zlib/UTF-8 codec facts the code relies on are hypotheses, instantiated at
the blob at hand: gzip output is a byte list longer than two starting with the
gzip magic `31, 139`, `gunzipSync` inverts `gzipSync`, and decoding the UTF-8
encoding of a string gives the string back. -/
theorem c4_recompress_roundtrip (gzip gunzip : List Nat → Option (List Nat))
    (utf8Encode utf8Decode : List Nat → List Nat) (s : Snapshot) (x out : List Nat)
    (hdata : s.data = some (.str x)) (htype : s.type = some 2)
    (hflag : s.original_compressed = true)
    (hgz : gzip (utf8Encode x) = some out)
    (hbytes : ∀ b ∈ out, b < 256) (hlen : 2 < out.length)
    (h0 : out.getD 0 0 = 31) (h1 : out.getD 1 0 = 139)
    (hinv : gunzip out = some (utf8Encode x))
    (hutf : utf8Decode (utf8Encode x) = x) :
    decompressSnapshot gunzip utf8Decode (recompressSnapshot gzip utf8Encode s) = s := by
  obtain ⟨t, d, ts, oc, de⟩ := s
  simp only at hdata htype hflag
  subst hdata htype hflag
  simp only [recompressSnapshot, hgz]
  simp only [decompressSnapshot, latin1Decode, latin1Encode_of_lt out hbytes,
    hinv, hutf, hlen, h0, h1, and_self, if_true, true_and]

/-- A stand-in gzip used only to instantiate codec hypotheses in witnesses:
prepend a three-byte header starting with the gzip magic. -/
def gzipToy (b : List Nat) : Option (List Nat) :=
  some (31 :: 139 :: 8 :: b)

/-- The matching stand-in gunzip. -/
def gunzipToy : List Nat → Option (List Nat)
  | 31 :: 139 :: 8 :: rest => some rest
  | _ => none

/-- A concrete flagged snapshot holding the one-character string `"A"`. -/
def c4Snap : Snapshot :=
  { type := some 2, data := some (.str [65]), timestamp := 7,
    original_compressed := true, decompression_error := false }

/-- Witness for C4 at a concrete blob and concrete codecs. -/
theorem c4_recompress_roundtrip_witness :
    decompressSnapshot gunzipToy id (recompressSnapshot gzipToy id c4Snap) = c4Snap :=
  c4_recompress_roundtrip gzipToy gunzipToy id id c4Snap [65] [31, 139, 8, 65]
    rfl rfl rfl rfl (by decide) (by decide) (by decide) (by decide) rfl rfl

/-! ## C5 -/

/-- A gzip that always throws, to exercise the recompression-failure path. -/
def gzipNone : List Nat → Option (List Nat) := fun _ => none

/-- A flagged, decompressed snapshot that cannot be recompressed. -/
def c5Snap : Snapshot :=
  { type := some 2, data := some (.str [123]), timestamp := 5,
    original_compressed := true, decompression_error := false }

/-- An event carrying the unrecompressible flagged blob. -/
def c5Chunk : EventChunk :=
  { properties := some
      { session_id := some "s", window_id := some "w", is_identified := false,
        distinct_id := some "u", snapshot_data := some [c5Snap] },
    timestamp := some 1 }

/-- C5 counterexample: when a blob flagged `_original_compressed` cannot be
recompressed, `recompressNestedSnapshots` does **not** fail the event — the
`catch` only warns, and the event is passed on unchanged, its data still
decompressed and the flag still set. -/
theorem c5_recompress_failure_not_error :
    recompressNestedSnapshots gzipNone id [c5Chunk] = [c5Chunk] ∧
    c5Snap.original_compressed = true ∧ c5Snap.data = some (.str [123]) :=
  ⟨rfl, rfl, rfl⟩

/-- C5 (amended): if `gzipSync` throws on a flagged blob, the snapshot is
returned unchanged (decompressed data and `_original_compressed` marker
intact); no error is raised for the event. -/
theorem c5_recompress_failure_skips (gzip : List Nat → Option (List Nat))
    (utf8Encode : List Nat → List Nat) (s : Snapshot) (cu : List Nat)
    (hdata : s.data = some (.str cu)) (htype : s.type = some 2)
    (hflag : s.original_compressed = true)
    (hfail : gzip (utf8Encode cu) = none) :
    recompressSnapshot gzip utf8Encode s = s := by
  obtain ⟨t, d, ts, oc, de⟩ := s
  simp only at hdata htype hflag
  subst hdata htype hflag
  simp [recompressSnapshot, hfail]

/-- Witness for the amended C5 at the concrete failing blob. -/
theorem c5_recompress_failure_skips_witness :
    recompressSnapshot gzipNone id c5Snap = c5Snap :=
  c5_recompress_failure_skips gzipNone id c5Snap [123] rfl rfl rfl rfl

/-! ## C1 -/

/-- Auxiliary: a key the map `has` also `get`s. -/
theorem mapGet_of_mapHas (m : IdMap) (k : Option String) (h : mapHas m k = true) :
    ∃ v, mapGet m k = some v := by
  induction m with
  | nil => simp [mapHas] at h
  | cons e m ih =>
    by_cases he : e.1 = k
    · exact ⟨e.2, by simp [mapGet, List.find?_cons, he]⟩
    · simp only [mapHas, List.any_cons, Bool.or_eq_true, decide_eq_true_eq] at h
      rcases h with h | h
      · exact absurd h he
      · obtain ⟨v, hv⟩ := ih h
        exact ⟨v, by simpa [mapGet, List.find?_cons, he] using hv⟩

/-- Auxiliary: a key the map `get`s is `has`. -/
theorem mapHas_of_mapGet (m : IdMap) (k : Option String) (v : String)
    (h : mapGet m k = some v) : mapHas m k = true := by
  induction m with
  | nil => simp [mapGet] at h
  | cons e m ih =>
    by_cases he : e.1 = k
    · simp [mapHas, List.any_cons, he]
    · simp only [mapGet, List.find?_cons, he] at h ih
      simp only [mapHas, List.any_cons, Bool.or_eq_true, decide_eq_true_eq]
      refine Or.inr (ih ?_)
      simpa [mapGet, List.find?_cons, he] using h

/-- Auxiliary: bindings survive appending entries on the right. -/
theorem mapGet_append (m l : IdMap) (k : Option String) (v : String)
    (h : mapGet m k = some v) : mapGet (m ++ l) k = some v := by
  induction m with
  | nil => simp [mapGet] at h
  | cons e m ih =>
    by_cases he : e.1 = k
    · simpa [mapGet, List.find?_cons, he] using h
    · have h2 : mapGet m k = some v := by
        simpa [mapGet, List.find?_cons, he] using h
      have h3 := ih h2
      simpa [mapGet, List.find?_cons, he] using h3

/-- Auxiliary: setting an absent key appends it, and it is then found. -/
theorem mapGet_mapSet_absent (m : IdMap) (k : Option String) (v : String)
    (h : mapHas m k = false) : mapGet (mapSet m k v) k = some v := by
  unfold mapSet
  rw [h]
  simp only [Bool.false_eq_true, if_false]
  have hnone : m.find? (fun e => e.1 = k) = none := by
    rw [List.find?_eq_none]
    intro e he
    simp only [decide_eq_true_eq]
    intro hek
    have : mapHas m k = true := by
      unfold mapHas
      rw [List.any_eq_true]
      exact ⟨e, he, by simp [hek]⟩
    rw [this] at h
    cases h
  unfold mapGet
  rw [List.find?_append, hnone]
  simp [List.find?_cons]

/-- The identity-mapping evolution of the `replaySession` loop: the two run
maps threaded through `modifyAndRecompress` for each recording (paired with
its fresh window id), collecting each recording's identifiers.  This is the
map/identifier view of the same threading `replayGo` performs. -/
def foldRecordings (cfg : ReplayConfig) (gzip : List Nat → Option (List Nat))
    (utf8Encode : List Nat → List Nat) :
    List (Recording × String) → IdMap → IdMap →
    Except String (IdMap × IdMap × List ModIdentifiers)
  | [], sMap, wMap => .ok (sMap, wMap, [])
  | (r, fw) :: rest, sMap, wMap =>
    match modifyAndRecompress cfg gzip utf8Encode fw r sMap wMap with
    | .error e => .error e
    | .ok out =>
      match foldRecordings cfg gzip utf8Encode rest out.sessionMap out.windowMap with
      | .error e => .error e
      | .ok (s1, w1, ids) => .ok (s1, w1, out.identifiers :: ids)

/-- Auxiliary: the map facts of one `modifyAndRecompress` step — the first
lookup of the first event's original session/window id inserts if absent and
returns the binding; existing bindings are preserved; an existing binding for
the looked-up id is reused as the new id. -/
theorem modify_maps_step (cfg : ReplayConfig) (gz : List Nat → Option (List Nat))
    (u : List Nat → List Nat) (fw : String) (r : Recording) (sMap wMap : IdMap)
    (out : ModResult) (h : modifyAndRecompress cfg gz u fw r sMap wMap = .ok out) :
    out.identifiers.originalSessionId = firstSessionId r ∧
    mapGet out.sessionMap (firstSessionId r) = some out.identifiers.newSessionId ∧
    mapGet out.windowMap (firstWindowId r) = some out.identifiers.newWindowId ∧
    (∀ k v, mapGet sMap k = some v → mapGet out.sessionMap k = some v) ∧
    (∀ k v, mapGet wMap k = some v → mapGet out.windowMap k = some v) ∧
    (∀ v, mapGet sMap (firstSessionId r) = some v → out.identifiers.newSessionId = v) ∧
    (∀ v, mapGet wMap (firstWindowId r) = some v → out.identifiers.newWindowId = v) := by
  obtain ⟨dec⟩ := r
  cases dec with
  | none => simp [modifyAndRecompress] at h
  | some chunks0 =>
    simp only [modifyAndRecompress] at h
    by_cases hg : firstSnapshotIndexThrows chunks0.head? = true
    · rw [if_pos hg] at h
      cases h
    · rw [if_neg hg] at h
      simp only [Except.ok.injEq] at h
      subst h
      have hfs : firstSessionId ⟨some chunks0⟩ =
          ((chunks0.head?).bind (·.properties)).bind (·.session_id) := rfl
      have hfw : firstWindowId ⟨some chunks0⟩ =
          ((chunks0.head?).bind (·.properties)).bind (·.window_id) := rfl
      rw [hfs, hfw]
      set k := ((chunks0.head?).bind (·.properties)).bind (·.session_id) with hk
      set kw := ((chunks0.head?).bind (·.properties)).bind (·.window_id) with hkw
      refine ⟨rfl, ?_, ?_, ?_, ?_, ?_, ?_⟩
      · by_cases hh : mapHas sMap k
        · simp only [hh, if_true]
          obtain ⟨v, hv⟩ := mapGet_of_mapHas sMap k hh
          simp [hv]
        · simp only [hh, Bool.false_eq_true, if_false]
          rw [mapGet_mapSet_absent sMap k cfg.sessionId (by simpa using hh)]
          simp [mapGet_mapSet_absent sMap k cfg.sessionId (by simpa using hh)]
      · by_cases hh : mapHas wMap kw
        · simp only [hh, if_true]
          obtain ⟨v, hv⟩ := mapGet_of_mapHas wMap kw hh
          simp [hv]
        · simp only [hh, Bool.false_eq_true, if_false]
          rw [mapGet_mapSet_absent wMap kw fw (by simpa using hh)]
          simp [mapGet_mapSet_absent wMap kw fw (by simpa using hh)]
      · intro k1 v1 hv1
        by_cases hh : mapHas sMap k
        · simpa [hh] using hv1
        · simp only [hh, Bool.false_eq_true, if_false]
          unfold mapSet
          rw [if_neg (by simp [hh])]
          exact mapGet_append _ _ _ _ hv1
      · intro k1 v1 hv1
        by_cases hh : mapHas wMap kw
        · simpa [hh] using hv1
        · simp only [hh, Bool.false_eq_true, if_false]
          unfold mapSet
          rw [if_neg (by simp [hh])]
          exact mapGet_append _ _ _ _ hv1
      · intro v hv
        have hh : mapHas sMap k = true := mapHas_of_mapGet sMap k v hv
        simp [hh, hv]
      · intro v hv
        have hh : mapHas wMap kw = true := mapHas_of_mapGet wMap kw v hv
        simp [hh, hv]

/-- Auxiliary: over a whole run, existing bindings survive, and every
recording's reported original session id is bound in the final map to exactly
the new id that recording used. -/
theorem foldRecordings_stable (cfg : ReplayConfig) (gz : List Nat → Option (List Nat))
    (u : List Nat → List Nat) :
    ∀ (recs : List (Recording × String)) (sMap wMap s1 w1 : IdMap)
      (ids : List ModIdentifiers),
      foldRecordings cfg gz u recs sMap wMap = .ok (s1, w1, ids) →
      (∀ k v, mapGet sMap k = some v → mapGet s1 k = some v) ∧
      (∀ k v, mapGet wMap k = some v → mapGet w1 k = some v) ∧
      (∀ idf ∈ ids, mapGet s1 idf.originalSessionId = some idf.newSessionId) := by
  intro recs
  induction recs with
  | nil =>
    intro sMap wMap s1 w1 ids h
    simp only [foldRecordings, Except.ok.injEq, Prod.mk.injEq] at h
    obtain ⟨hs, hw, hi⟩ := h
    subst hs; subst hw; subst hi
    exact ⟨fun _ _ hv => hv, fun _ _ hv => hv, by simp⟩
  | cons rc rest ih =>
    intro sMap wMap s1 w1 ids h
    obtain ⟨r, fw⟩ := rc
    simp only [foldRecordings] at h
    cases hm : modifyAndRecompress cfg gz u fw r sMap wMap with
    | error e => rw [hm] at h; simp at h
    | ok out =>
      rw [hm] at h
      dsimp only at h
      cases hf : foldRecordings cfg gz u rest out.sessionMap out.windowMap with
      | error e => rw [hf] at h; simp at h
      | ok trip =>
        obtain ⟨s1x, w1x, idsx⟩ := trip
        rw [hf] at h
        dsimp only at h
        simp only [Except.ok.injEq, Prod.mk.injEq] at h
        obtain ⟨hs, hw, hi⟩ := h
        subst hs; subst hw; subst hi
        have step := modify_maps_step cfg gz u fw r sMap wMap out hm
        have ihr := ih out.sessionMap out.windowMap s1x w1x idsx hf
        refine ⟨?_, ?_, ?_⟩
        · intro k v hv
          exact ihr.1 k v (step.2.2.2.1 k v hv)
        · intro k v hv
          exact ihr.2.1 k v (step.2.2.2.2.1 k v hv)
        · intro idf hidf
          rcases List.mem_cons.mp hidf with hidf | hidf
          · subst hidf
            refine ihr.1 _ _ ?_
            rw [step.1]
            exact step.2.1
          · exact ihr.2.2 idf hidf

/-- C1: within one replay run, each distinct original session id and each
distinct original window id maps to exactly one new id.  The first lookup of
an original id inserts a new id into the run's mapping (insert-if-absent);
every subsequent lookup of the same original id — by a later recording of the
run, or through the map entries handed to the correlated application-event
stream — returns that same new id: a `modifyAndRecompress` step binds the
first event's original ids to the new ids it reports, preserves all existing
bindings, and reuses an existing binding; over the whole run the final map
(the one the event-stream loop iterates) binds every recording's original
session id to the new id that recording used. -/
theorem c1_identity_mapping_stable (cfg : ReplayConfig)
    (gz : List Nat → Option (List Nat)) (u : List Nat → List Nat) :
    (∀ fw r sMap wMap out,
        modifyAndRecompress cfg gz u fw r sMap wMap = .ok out →
        mapGet out.sessionMap (firstSessionId r) = some out.identifiers.newSessionId ∧
        mapGet out.windowMap (firstWindowId r) = some out.identifiers.newWindowId ∧
        (∀ k v, mapGet sMap k = some v → mapGet out.sessionMap k = some v) ∧
        (∀ k v, mapGet wMap k = some v → mapGet out.windowMap k = some v) ∧
        (∀ v, mapGet sMap (firstSessionId r) = some v →
          out.identifiers.newSessionId = v) ∧
        (∀ v, mapGet wMap (firstWindowId r) = some v →
          out.identifiers.newWindowId = v)) ∧
    (∀ recs sMap wMap s1 w1 ids,
        foldRecordings cfg gz u recs sMap wMap = .ok (s1, w1, ids) →
        (∀ k v, mapGet sMap k = some v → mapGet s1 k = some v) ∧
        (∀ k v, mapGet wMap k = some v → mapGet w1 k = some v) ∧
        (∀ idf ∈ ids, mapGet s1 idf.originalSessionId = some idf.newSessionId)) := by
  constructor
  · intro fw r sMap wMap out h
    have step := modify_maps_step cfg gz u fw r sMap wMap out h
    exact ⟨step.2.1, step.2.2.1, step.2.2.2.1, step.2.2.2.2.1,
      step.2.2.2.2.2.1, step.2.2.2.2.2.2⟩
  · intro recs sMap wMap s1 w1 ids h
    exact foldRecordings_stable cfg gz u recs sMap wMap s1 w1 ids h

/-- A concrete replay configuration for witnesses. -/
def cfgW : ReplayConfig :=
  { sessionId := "NEWSESH", userId := "user-1", anonId := "anon-1", timestamp := 999 }

/-- A concrete recording chunk with session `origS` and window `origW`.  Its
`$snapshot_data` is a (possibly empty) array, as the unguarded
`$snapshot_data[0]` read in `modifyAndRecompress` requires of the first
chunk. -/
def w1Chunk : EventChunk :=
  { properties := some
      { session_id := some "origS", window_id := some "origW", is_identified := false,
        distinct_id := some "origU", snapshot_data := some [] },
    timestamp := some 10 }

/-- A concrete recording. -/
def w1Rec : Recording := { decompressed := some [w1Chunk] }

/-- Witness for C1: a run over two recordings with the same original ids binds
the original session id to one new id in the final map. -/
theorem c1_identity_mapping_stable_witness :
    mapGet [(some "origS", "NEWSESH")] (some "origS") = some "NEWSESH" := by
  have h := (c1_identity_mapping_stable cfgW gzipToy id).2
    [(w1Rec, "fw1"), (w1Rec, "fw2")] [] []
    [(some "origS", "NEWSESH")] [(some "origW", "fw1")]
    [{ newSessionId := "NEWSESH", newWindowId := "fw1",
       originalUserId := some "origU", originalSessionId := some "origS" },
     { newSessionId := "NEWSESH", newWindowId := "fw1",
       originalUserId := some "origU", originalSessionId := some "origS" }]
    (by rfl)
  exact h.2.2 _ (List.mem_cons_self _ _)

/-! ## C2 -/

/-- Auxiliary: a chunk without `properties` passes through `modifyChunk`
unchanged. -/
theorem modifyChunk_none (cfg : ReplayConfig) (ns nw : String) (c : EventChunk)
    (hq : c.properties = none) : modifyChunk cfg ns nw c = c := by
  obtain ⟨props, ts⟩ := c
  simp only at hq
  subst hq
  rfl

/-- Auxiliary: the full effect of `modifyChunk` on a chunk with properties. -/
theorem modifyChunk_props (cfg : ReplayConfig) (ns nw : String) (c : EventChunk)
    (q : Properties) (hq : c.properties = some q) :
    (modifyChunk cfg ns nw c).properties = some
      { session_id := if truthyStr q.session_id then some ns else q.session_id,
        window_id := if truthyStr q.window_id then some nw else q.window_id,
        is_identified := q.is_identified,
        distinct_id := some (if q.is_identified then cfg.userId else cfg.anonId),
        snapshot_data := q.snapshot_data.map
          (List.map (fun s => { s with timestamp := s.timestamp - 86400000 })) } ∧
    (modifyChunk cfg ns nw c).timestamp = c.timestamp := by
  obtain ⟨props, ts⟩ := c
  simp only at hq
  subst hq
  obtain ⟨sid, wid, iid, did, sdata⟩ := q
  simp only [modifyChunk]
  by_cases h1 : truthyStr sid <;> by_cases h2 : truthyStr wid <;>
    cases sdata <;> simp [h1, h2]

/-- Auxiliary: every chunk that leaves `modifyChunk` with properties carries
the substituted `distinct_id`. -/
theorem modifyChunk_distinct (cfg : ReplayConfig) (ns nw : String) (c : EventChunk)
    (p : Properties) (hp : (modifyChunk cfg ns nw c).properties = some p) :
    p.distinct_id = some (if p.is_identified then cfg.userId else cfg.anonId) := by
  cases hq : c.properties with
  | none => rw [modifyChunk_none cfg ns nw c hq, hq] at hp; cases hp
  | some q =>
    rw [(modifyChunk_props cfg ns nw c q hq).1] at hp
    have := Option.some.inj hp
    subst this
    rfl

/-- Auxiliary: the chunks produced by one `modifyAndRecompress` call are the
repaired, recompressed originals with the per-chunk modification applied. -/
theorem modify_chunks_shape (cfg : ReplayConfig) (gz : List Nat → Option (List Nat))
    (u : List Nat → List Nat) (fw : String) (r : Recording) (sMap wMap : IdMap)
    (out : ModResult) (chunks0 : List EventChunk)
    (hdec : r.decompressed = some chunks0)
    (h : modifyAndRecompress cfg gz u fw r sMap wMap = .ok out) :
    out.chunks = (recompressNestedSnapshots gz u (ensureDOMAttributesExist chunks0)).map
      (modifyChunk cfg out.identifiers.newSessionId out.identifiers.newWindowId) := by
  obtain ⟨dec⟩ := r
  simp only at hdec
  subst hdec
  simp only [modifyAndRecompress] at h
  by_cases hg : firstSnapshotIndexThrows chunks0.head? = true
  · rw [if_pos hg] at h
    cases h
  · rw [if_neg hg] at h
    simp only [Except.ok.injEq] at h
    subst h
    rfl

/-- Auxiliary: a kept application event carries the substituted `distinct_id`
and the single batch timestamp. -/
theorem processAppEvent_props (cfg : ReplayConfig) (os : Option String)
    (ns now : String) (ev m : AppEvent) (h : processAppEvent cfg os ns now ev = some m) :
    (∀ p, m.properties = some p →
      p.distinct_id = some (if p.is_identified then cfg.userId else cfg.anonId)) ∧
    m.timestamp = some cfg.timestamp := by
  obtain ⟨props, ts, uu, off⟩ := ev
  cases props with
  | none => simp [processAppEvent] at h
  | some q =>
    obtain ⟨sid0, iid, did, lb, lv⟩ := q
    cases sid0 with
    | none => simp [processAppEvent] at h
    | some sid =>
      by_cases hs : sid = ""
      · simp [processAppEvent, hs] at h
      · by_cases ho : some sid = os
        · simp only [processAppEvent, hs, ho, if_false, if_true, truthyStr,
            ne_eq, decide_not, Option.map_some, Option.some.injEq] at h
          subst h
          constructor
          · intro p hp
            simp only [hs] at hp
            simp only [decide_False, Bool.not_false, if_true] at hp
            have := Option.some.inj hp
            subst this
            rfl
          · simp [hs]
        · simp [processAppEvent, hs, ho] at h

/-- C2: in the replayed output of one run — recording chunks out of
`modifyAndRecompress` and correlated application events out of
`loadAndModifyEvents` — every event's `distinct_id` is the configured target
user id when the source event is marked `$is_identified`, and the run's single
anonymous id otherwise; in particular an original user id distinct from both
never appears. -/
theorem c2_user_identity_replaced (cfg : ReplayConfig) (origUser : String)
    (h1 : origUser ≠ cfg.userId) (h2 : origUser ≠ cfg.anonId) :
    (∀ gz u fw r sMap wMap out,
      modifyAndRecompress cfg gz u fw r sMap wMap = .ok out →
      ∀ c ∈ out.chunks, ∀ p, c.properties = some p →
        p.distinct_id = some (if p.is_identified then cfg.userId else cfg.anonId) ∧
        p.distinct_id ≠ some origUser) ∧
    (∀ os ns now ev m, processAppEvent cfg os ns now ev = some m →
      ∀ p, m.properties = some p →
        p.distinct_id = some (if p.is_identified then cfg.userId else cfg.anonId) ∧
        p.distinct_id ≠ some origUser) := by
  have hne : ∀ p : Bool, some (if p then cfg.userId else cfg.anonId) ≠ some origUser := by
    intro p hcontra
    have heq := Option.some.inj hcontra
    by_cases hi : p = true
    · rw [if_pos hi] at heq; exact h1 heq.symm
    · rw [if_neg hi] at heq; exact h2 heq.symm
  constructor
  · intro gz u fw r sMap wMap out h c hc p hp
    obtain ⟨dec⟩ := r
    cases dec with
    | none => simp [modifyAndRecompress] at h
    | some chunks0 =>
      rw [modify_chunks_shape cfg gz u fw ⟨some chunks0⟩ sMap wMap out chunks0 rfl h] at hc
      obtain ⟨c0, _, rfl⟩ := List.mem_map.mp hc
      have hd := modifyChunk_distinct cfg _ _ c0 p hp
      exact ⟨hd, hd ▸ hne p.is_identified⟩
  · intro os ns now ev m h p hp
    have hd := (processAppEvent_props cfg os ns now ev m h).1 p hp
    exact ⟨hd, hd ▸ hne p.is_identified⟩

/-- A concrete anonymous application event in session `origS`. -/
def c2Ev : AppEvent :=
  { properties := some
      { session_id := some "origS", is_identified := false, distinct_id := some "origU",
        lib := none, lib_version := none },
    timestamp := some 1000, uuid := some "u1", offset := some 5 }

/-- The properties `c2Ev` leaves `loadAndModifyEvents` with. -/
def c2OutProps : AppProps :=
  { session_id := some "NEWSESH", is_identified := false, distinct_id := some "anon-1",
    lib := some "posthog-session-replay", lib_version := some "nowiso" }

/-- Witness for C2 at a concrete event: the anonymous id replaces the original
user id. -/
theorem c2_user_identity_replaced_witness :
    c2OutProps.distinct_id = some (if c2OutProps.is_identified then cfgW.userId else cfgW.anonId) ∧
    c2OutProps.distinct_id ≠ some "origU" :=
  (c2_user_identity_replaced cfgW "origU" (by decide) (by decide)).2
    (some "origS") "NEWSESH" "nowiso" c2Ev
    { properties := some c2OutProps, timestamp := some 999, uuid := none, offset := none }
    (by rfl) c2OutProps rfl

/-! ## C3 -/

/-- The nested snapshot timestamps of a chunk. -/
def chunkSnapTimes (c : EventChunk) : List Int :=
  match c.properties with
  | some p => (p.snapshot_data.getD []).map (·.timestamp)
  | none => []

/-- Auxiliary: DOM repair does not touch snapshot timestamps. -/
theorem ensureSnapshot_timestamp (s : Snapshot) :
    (ensureSnapshot s).timestamp = s.timestamp := by
  unfold ensureSnapshot
  split <;> rfl

/-- Auxiliary: recompression does not touch snapshot timestamps. -/
theorem recompressSnapshot_timestamp (gz : List Nat → Option (List Nat))
    (u : List Nat → List Nat) (s : Snapshot) :
    (recompressSnapshot gz u s).timestamp = s.timestamp := by
  obtain ⟨t, d, ts, oc, de⟩ := s
  simp only [recompressSnapshot]
  cases d with
  | none => rfl
  | some sd =>
    cases sd with
    | obj o => rfl
    | str cu =>
      dsimp only
      by_cases hc : t = some 2 ∧ oc = true
      · rw [if_pos hc]
        cases hgz : gz (u cu) <;> simp [hgz]
      · rw [if_neg hc]

/-- Auxiliary: `ensureChunk` preserves the snapshot timestamps. -/
theorem chunkSnapTimes_ensure (c : EventChunk) :
    chunkSnapTimes (ensureChunk c) = chunkSnapTimes c := by
  obtain ⟨props, ts⟩ := c
  cases props with
  | none => rfl
  | some p =>
    obtain ⟨sid, wid, iid, did, sdata⟩ := p
    cases sdata with
    | none => rfl
    | some snaps =>
      simp [ensureChunk, chunkSnapTimes, List.map_map, Function.comp,
        ensureSnapshot_timestamp]

/-- Auxiliary: `recompressChunk` preserves the snapshot timestamps. -/
theorem chunkSnapTimes_recompress (gz : List Nat → Option (List Nat))
    (u : List Nat → List Nat) (c : EventChunk) :
    chunkSnapTimes (recompressChunk gz u c) = chunkSnapTimes c := by
  obtain ⟨props, ts⟩ := c
  cases props with
  | none => rfl
  | some p =>
    obtain ⟨sid, wid, iid, did, sdata⟩ := p
    cases sdata with
    | none => rfl
    | some snaps =>
      simp [recompressChunk, chunkSnapTimes, List.map_map, Function.comp,
        recompressSnapshot_timestamp]

/-- Auxiliary: `modifyChunk` shifts every snapshot timestamp by 86400000 ms. -/
theorem chunkSnapTimes_modify (cfg : ReplayConfig) (ns nw : String) (c : EventChunk) :
    chunkSnapTimes (modifyChunk cfg ns nw c) = (chunkSnapTimes c).map (· - 86400000) := by
  cases hq : c.properties with
  | none => rw [modifyChunk_none cfg ns nw c hq]; simp [chunkSnapTimes, hq]
  | some q =>
    have hm := (modifyChunk_props cfg ns nw c q hq).1
    simp only [chunkSnapTimes, hm, hq]
    cases q.snapshot_data <;> simp [List.map_map, Function.comp]

/-- Auxiliary: `ensureChunk` preserves the top-level timestamp. -/
theorem ensureChunk_timestamp (c : EventChunk) :
    (ensureChunk c).timestamp = c.timestamp := by
  obtain ⟨props, ts⟩ := c
  cases props with
  | none => rfl
  | some p =>
    obtain ⟨sid, wid, iid, did, sdata⟩ := p
    cases sdata <;> rfl

/-- Auxiliary: `recompressChunk` preserves the top-level timestamp. -/
theorem recompressChunk_timestamp (gz : List Nat → Option (List Nat))
    (u : List Nat → List Nat) (c : EventChunk) :
    (recompressChunk gz u c).timestamp = c.timestamp := by
  obtain ⟨props, ts⟩ := c
  cases props with
  | none => rfl
  | some p =>
    obtain ⟨sid, wid, iid, did, sdata⟩ := p
    cases sdata <;> rfl

/-- Auxiliary: `modifyChunk` preserves the top-level timestamp. -/
theorem modifyChunk_timestamp (cfg : ReplayConfig) (ns nw : String) (c : EventChunk) :
    (modifyChunk cfg ns nw c).timestamp = c.timestamp := by
  cases hq : c.properties with
  | none => rw [modifyChunk_none cfg ns nw c hq]
  | some q => exact (modifyChunk_props cfg ns nw c q hq).2

/-- A first application event of session `A` at instant 1000. -/
def c3Ev1 : AppEvent :=
  { properties := some
      { session_id := some "A", is_identified := false, distinct_id := some "d",
        lib := none, lib_version := none },
    timestamp := some 1000, uuid := none, offset := none }

/-- A second application event of session `A` at instant 2000. -/
def c3Ev2 : AppEvent :=
  { properties := some
      { session_id := some "A", is_identified := false, distinct_id := some "d",
        lib := none, lib_version := none },
    timestamp := some 2000, uuid := none, offset := none }

/-- C3 counterexample: two application events of one session 1000 ms apart
both leave `loadAndModifyEvents` carrying the single batch timestamp
(`cfgW.timestamp = 999`), so the shifted timestamps satisfy
`shifted(t2) − shifted(t1) = 0 ≠ t2 − t1 = 1000`: relative deltas are not
preserved on the correlated application-event stream. -/
theorem c3_app_event_deltas_collapsed :
    (processAppEvent cfgW (some "A") "B" "n" c3Ev1).bind (·.timestamp) = some 999 ∧
    (processAppEvent cfgW (some "A") "B" "n" c3Ev2).bind (·.timestamp) = some 999 ∧
    c3Ev1.timestamp = some 1000 ∧ c3Ev2.timestamp = some 2000 ∧
    ¬ ((999 : Int) - 999 = 2000 - 1000) :=
  ⟨rfl, rfl, rfl, rfl, by decide⟩

/-- C3 (amended): within a recording, `modifyAndRecompress` shifts every
nested snapshot timestamp by the uniform constant 86400000 ms — so deltas
between snapshot timestamps are preserved exactly — and leaves every
top-level chunk timestamp unchanged; the correlated application events, in
contrast, all receive the single batch timestamp `config.timestamp`, which
does not preserve their deltas. -/
theorem c3_snapshot_shift_uniform (cfg : ReplayConfig)
    (gz : List Nat → Option (List Nat)) (u : List Nat → List Nat) (fw : String)
    (r : Recording) (sMap wMap : IdMap) (out : ModResult) (chunks0 : List EventChunk)
    (hdec : r.decompressed = some chunks0)
    (h : modifyAndRecompress cfg gz u fw r sMap wMap = .ok out) :
    out.chunks.map chunkSnapTimes
      = chunks0.map (fun c => (chunkSnapTimes c).map (· - 86400000)) ∧
    out.chunks.map EventChunk.timestamp = chunks0.map EventChunk.timestamp ∧
    (∀ t1 t2 : Int, (t1 - 86400000) - (t2 - 86400000) = t1 - t2) ∧
    (∀ os ns now ev m, processAppEvent cfg os ns now ev = some m →
      m.timestamp = some cfg.timestamp) := by
  rw [modify_chunks_shape cfg gz u fw r sMap wMap out chunks0 hdec h]
  refine ⟨?_, ?_, fun t1 t2 => by omega,
    fun os ns now ev m hm => (processAppEvent_props cfg os ns now ev m hm).2⟩
  · simp only [recompressNestedSnapshots, ensureDOMAttributesExist, List.map_map]
    refine List.map_congr_left ?_
    intro c _
    simp only [Function.comp_apply, chunkSnapTimes_modify, chunkSnapTimes_recompress,
      chunkSnapTimes_ensure]
  · simp only [recompressNestedSnapshots, ensureDOMAttributesExist, List.map_map]
    refine List.map_congr_left ?_
    intro c _
    simp only [Function.comp_apply, modifyChunk_timestamp, recompressChunk_timestamp,
      ensureChunk_timestamp]

/-- A concrete snapshot at instant 500. -/
def c3Snap : Snapshot :=
  { type := some 3, data := none, timestamp := 500,
    original_compressed := false, decompression_error := false }

/-- The properties of a concrete recording chunk holding `c3Snap`. -/
def c3ChunkProps : Properties :=
  { session_id := some "A", window_id := some "W", is_identified := true,
    distinct_id := some "x", snapshot_data := some [c3Snap] }

/-- A concrete recording chunk holding `c3Snap`. -/
def c3Chunk : EventChunk :=
  { properties := some c3ChunkProps, timestamp := some 77 }

/-- A concrete recording holding `c3Chunk`. -/
def c3Rec : Recording := { decompressed := some [c3Chunk] }

/-- The snapshot of `c3Rec` after the replay shift. -/
def c3OutSnap : Snapshot :=
  { type := some 3, data := none, timestamp := -86399500,
    original_compressed := false, decompression_error := false }

/-- The properties of the chunk of `c3Rec` after remapping. -/
def c3OutProps : Properties :=
  { session_id := some "NEWSESH", window_id := some "fwC3", is_identified := true,
    distinct_id := some "user-1", snapshot_data := some [c3OutSnap] }

/-- The result `modifyAndRecompress` produces for `c3Rec` under `cfgW`. -/
def c3Out : ModResult :=
  { chunks := [{ properties := some c3OutProps, timestamp := some 77 }],
    identifiers := { newSessionId := "NEWSESH", newWindowId := "fwC3",
                     originalUserId := some "x", originalSessionId := some "A" },
    sessionMap := [(some "A", "NEWSESH")],
    windowMap := [(some "W", "fwC3")] }

/-- Witness for the amended C3 at a concrete recording: the snapshot timestamp
is shifted by exactly 86400000 ms. -/
theorem c3_snapshot_shift_uniform_witness :
    c3Out.chunks.map chunkSnapTimes
      = [c3Chunk].map (fun c => (chunkSnapTimes c).map (· - 86400000)) :=
  (c3_snapshot_shift_uniform cfgW gzipToy id "fwC3" c3Rec [] [] c3Out [c3Chunk]
    rfl (by rfl)).1

/-! ## C10 -/

/-- Auxiliary: repair and recompression leave the session and window ids of a
chunk untouched. -/
theorem prepChunk_ids (gz : List Nat → Option (List Nat)) (u : List Nat → List Nat)
    (c : EventChunk) :
    (recompressChunk gz u (ensureChunk c)).properties.map
        (fun p => (p.session_id, p.window_id))
      = c.properties.map (fun p => (p.session_id, p.window_id)) := by
  obtain ⟨props, ts⟩ := c
  cases props with
  | none => rfl
  | some p =>
    obtain ⟨sid, wid, iid, did, sdata⟩ := p
    cases sdata <;> rfl

/-- C10: the session-id and window-id substitution applied to a whole
recording is determined solely by the first element of its decompressed
array: the run mapping is looked up (insert-if-absent) at the first event's
original ids, and every chunk whose properties carry a truthy `$session_id`
or `$window_id` — whatever its own original value — is overwritten with those
single new ids. -/
theorem c10_ids_from_first_event (cfg : ReplayConfig)
    (gz : List Nat → Option (List Nat)) (u : List Nat → List Nat) (fw : String)
    (r : Recording) (sMap wMap : IdMap) (out : ModResult) (chunks0 : List EventChunk)
    (hdec : r.decompressed = some chunks0)
    (h : modifyAndRecompress cfg gz u fw r sMap wMap = .ok out) :
    out.identifiers.originalSessionId = firstSessionId r ∧
    mapGet out.sessionMap (firstSessionId r) = some out.identifiers.newSessionId ∧
    out.chunks.length = chunks0.length ∧
    ∀ i (hi : i < chunks0.length) (hi2 : i < out.chunks.length) p,
      (chunks0.get ⟨i, hi⟩).properties = some p →
      ∃ p2, (out.chunks.get ⟨i, hi2⟩).properties = some p2 ∧
        (truthyStr p.session_id = true →
          p2.session_id = some out.identifiers.newSessionId) ∧
        (truthyStr p.window_id = true →
          p2.window_id = some out.identifiers.newWindowId) := by
  have step := modify_maps_step cfg gz u fw r sMap wMap out h
  have hshape := modify_chunks_shape cfg gz u fw r sMap wMap out chunks0 hdec h
  refine ⟨step.1, step.2.1, ?_, ?_⟩
  · rw [hshape]
    simp [recompressNestedSnapshots, ensureDOMAttributesExist]
  · intro i hi hi2 p hp
    have hget : out.chunks.get ⟨i, hi2⟩ =
        modifyChunk cfg out.identifiers.newSessionId out.identifiers.newWindowId
          (recompressChunk gz u (ensureChunk (chunks0.get ⟨i, hi⟩))) := by
      have hg : out.chunks.get ⟨i, hi2⟩ = out.chunks[i] := rfl
      rw [hg]
      simp only [hshape, recompressNestedSnapshots, ensureDOMAttributesExist,
        List.map_map, List.getElem_map, Function.comp_apply]
      rfl
    have hids := prepChunk_ids gz u (chunks0.get ⟨i, hi⟩)
    rw [hp] at hids
    simp only [Option.map_some'] at hids
    obtain ⟨q, hq, hpair⟩ := Option.map_eq_some'.mp hids
    have hqs : q.session_id = p.session_id := congrArg Prod.fst hpair
    have hqw : q.window_id = p.window_id := congrArg Prod.snd hpair
    have hmp := (modifyChunk_props cfg out.identifiers.newSessionId
      out.identifiers.newWindowId _ q hq).1
    refine ⟨_, by rw [hget]; exact hmp, ?_, ?_⟩
    · intro ht
      simp [hqs, ht]
    · intro ht
      simp [hqw, ht]

/-- Witness for C10 at the concrete recording `c3Rec`: its chunk's session and
window ids are overwritten with the ids derived from the first event. -/
theorem c10_ids_from_first_event_witness :
    ∃ p2, (c3Out.chunks.get ⟨0, by decide⟩).properties = some p2 ∧
      (truthyStr c3ChunkProps.session_id = true →
        p2.session_id = some c3Out.identifiers.newSessionId) ∧
      (truthyStr c3ChunkProps.window_id = true →
        p2.window_id = some c3Out.identifiers.newWindowId) :=
  (c10_ids_from_first_event cfgW gzipToy id "fwC3" c3Rec [] [] c3Out [c3Chunk]
    rfl (by rfl)).2.2.2 0 (by decide) (by decide) c3ChunkProps rfl

/-! ## C7 -/

/-- Auxiliary: every action of the event-dispatch loop is an event dispatch
for the current recording. -/
theorem eventsDispatchTrace_mem (cfg : ReplayConfig) (entries : List EventLogEntry)
    (now : String) (i : Nat) (m : IdMap) :
    ∀ a ∈ eventsDispatchTrace cfg entries now i m,
      ∃ k, a = RAction.dispatchEvents i k := by
  intro a ha
  unfold eventsDispatchTrace at ha
  obtain ⟨e, _, ha2⟩ := List.mem_flatMap.mp ha
  cases hl : loadAndModifyEvents cfg entries e.1 e.2 now with
  | none => rw [hl] at ha2; cases ha2
  | some b =>
    rw [hl] at ha2
    rcases List.mem_singleton.mp ha2 with rfl
    exact ⟨e.1, rfl⟩

/-- Auxiliary: when `modifyAndRecompress` succeeds, the trace of one loop
iteration is recompress, then the event dispatches, then the recording
dispatch — whatever the recording dispatch's outcome. -/
theorem processRecording_trace (cfg : ReplayConfig) (gz : List Nat → Option (List Nat))
    (u : List Nat → List Nat) (entries : List EventLogEntry) (now : String)
    (dryRun : Bool) (i : Nat) (rc : Recording × String × Nat) (sMap wMap : IdMap)
    (out : ModResult) (h : modifyAndRecompress cfg gz u rc.2.1 rc.1 sMap wMap = .ok out) :
    (processRecording cfg gz u entries now dryRun i rc sMap wMap).2 =
      RAction.recompress i :: eventsDispatchTrace cfg entries now i out.sessionMap
        ++ [RAction.dispatchRecording i] := by
  unfold processRecording
  rw [h]
  dsimp only
  cases hs : sendToPostHog dryRun rc.2.2 <;> rfl

/-- Auxiliary: when the recording dispatch rejects, the loop iteration's
result is that error, with the same trace. -/
theorem processRecording_error (cfg : ReplayConfig) (gz : List Nat → Option (List Nat))
    (u : List Nat → List Nat) (entries : List EventLogEntry) (now : String)
    (dryRun : Bool) (i : Nat) (rc : Recording × String × Nat) (sMap wMap : IdMap)
    (out : ModResult) (e : String)
    (h : modifyAndRecompress cfg gz u rc.2.1 rc.1 sMap wMap = .ok out)
    (hs : sendToPostHog dryRun rc.2.2 = .error e) :
    processRecording cfg gz u entries now dryRun i rc sMap wMap =
      (.error e, RAction.recompress i :: eventsDispatchTrace cfg entries now i out.sessionMap
        ++ [RAction.dispatchRecording i]) := by
  unfold processRecording
  rw [h]
  dsimp only
  rw [hs]

/-- The parsed `events.jsonl` with one batch entry holding an event of
session `A`. -/
def c7Entries : List EventLogEntry := [{ data := some (.array [c3Ev1]) }]

/-- C7 counterexample: in a concrete one-recording run, the correlated
application events are dispatched at trace position 1, **before** the
recording dispatch at position 2 — the claimed order (recording dispatch
before event dispatch) is violated. -/
theorem c7_events_dispatched_before_recording :
    (replaySession cfgW gzipToy id c7Entries "n" true [(c3Rec, "fwC3", 200)]).2 =
      [RAction.recompress 0, RAction.dispatchEvents 0 (some "A"),
       RAction.dispatchRecording 0] ∧
    ¬ (∀ p q i k,
        (replaySession cfgW gzipToy id c7Entries "n" true [(c3Rec, "fwC3", 200)]).2.get? p
          = some (RAction.dispatchEvents i k) →
        (replaySession cfgW gzipToy id c7Entries "n" true [(c3Rec, "fwC3", 200)]).2.get? q
          = some (RAction.dispatchRecording i) → q < p) := by
  refine ⟨by rfl, ?_⟩
  intro hcl
  have := hcl 1 2 0 (some "A") (by rfl) (by rfl)
  omega

/-- C7 (amended): for every recording processed in a replay run, the dispatch
steps occur in the order: recompression completes, then the recording's
correlated application events are dispatched (using the identity mapping
finalized during recompression), then the recording's snapshot stream is
dispatched. -/
theorem c7_dispatch_order (cfg : ReplayConfig) (gz : List Nat → Option (List Nat))
    (u : List Nat → List Nat) (entries : List EventLogEntry) (now : String)
    (dryRun : Bool) (i : Nat) (rc : Recording × String × Nat) (sMap wMap : IdMap)
    (out : ModResult)
    (h : modifyAndRecompress cfg gz u rc.2.1 rc.1 sMap wMap = .ok out) :
    ∃ evs, (processRecording cfg gz u entries now dryRun i rc sMap wMap).2 =
        RAction.recompress i :: evs ++ [RAction.dispatchRecording i] ∧
      ∀ a ∈ evs, ∃ k, a = RAction.dispatchEvents i k :=
  ⟨eventsDispatchTrace cfg entries now i out.sessionMap,
   processRecording_trace cfg gz u entries now dryRun i rc sMap wMap out h,
   eventsDispatchTrace_mem cfg entries now i out.sessionMap⟩

/-- Witness for the amended C7 at a concrete recording. -/
theorem c7_dispatch_order_witness :
    ∃ evs, (processRecording cfgW gzipToy id c7Entries "n" true 0
        (c3Rec, "fwC3", 200) [] []).2 =
        RAction.recompress 0 :: evs ++ [RAction.dispatchRecording 0] ∧
      ∀ a ∈ evs, ∃ k, a = RAction.dispatchEvents 0 k :=
  c7_dispatch_order cfgW gzipToy id c7Entries "n" true 0 (c3Rec, "fwC3", 200) [] []
    c3Out (by rfl)

/-! ## C6 -/

/-- C6 counterexample: with two recordings and a live run, an HTTP 413 on the
first recording's dispatch makes the whole run fail; the second recording is
never recompressed nor dispatched. -/
theorem c6_non2xx_aborts_siblings :
    replaySession cfgW gzipToy id [] "n" false
        [(c3Rec, "fwC3", 413), (w1Rec, "fw1", 200)] =
      (.error "HTTP 413", [RAction.recompress 0, RAction.dispatchRecording 0]) ∧
    RAction.recompress 1 ∉ (replaySession cfgW gzipToy id [] "n" false
        [(c3Rec, "fwC3", 413), (w1Rec, "fw1", 200)]).2 ∧
    RAction.dispatchRecording 1 ∉ (replaySession cfgW gzipToy id [] "n" false
        [(c3Rec, "fwC3", 413), (w1Rec, "fw1", 200)]).2 := by
  refine ⟨by rfl, by decide, by decide⟩

/-- C6 (amended): a non-2xx response while dispatching one recording is
raised as an error that ends the run: `replaySession` rethrows it, the run's
result is that error, and every action in the run's trace belongs to the
failing recording — the remaining sibling recordings are not processed. -/
theorem c6_dispatch_failure_aborts_run (cfg : ReplayConfig)
    (gz : List Nat → Option (List Nat)) (u : List Nat → List Nat)
    (entries : List EventLogEntry) (now : String) (i : Nat)
    (rc : Recording × String × Nat) (rest : List (Recording × String × Nat))
    (sMap wMap : IdMap) (out : ModResult) (e : String)
    (h : modifyAndRecompress cfg gz u rc.2.1 rc.1 sMap wMap = .ok out)
    (hs : sendToPostHog false rc.2.2 = .error e) :
    (replayGo cfg gz u entries now false (rc :: rest) i sMap wMap).1 = .error e ∧
    ∀ a ∈ (replayGo cfg gz u entries now false (rc :: rest) i sMap wMap).2,
      a.recIdx = i := by
  have hpr := processRecording_error cfg gz u entries now false i rc sMap wMap out e h hs
  have hgo : replayGo cfg gz u entries now false (rc :: rest) i sMap wMap =
      (.error e, RAction.recompress i ::
        eventsDispatchTrace cfg entries now i out.sessionMap
        ++ [RAction.dispatchRecording i]) := by
    unfold replayGo
    rw [hpr]
  rw [hgo]
  refine ⟨rfl, ?_⟩
  intro a ha
  rcases List.mem_cons.mp ha with rfl | ha2
  · rfl
  · rcases List.mem_append.mp ha2 with ha3 | ha3
    · obtain ⟨k, rfl⟩ := eventsDispatchTrace_mem cfg entries now i out.sessionMap a ha3
      rfl
    · rcases List.mem_singleton.mp ha3 with rfl
      rfl

/-- Witness for the amended C6 at a concrete failing run. -/
theorem c6_dispatch_failure_aborts_run_witness :
    (replayGo cfgW gzipToy id [] "n" false
        [(c3Rec, "fwC3", 413), (w1Rec, "fw1", 200)] 0 [] []).1 = .error "HTTP 413" ∧
    ∀ a ∈ (replayGo cfgW gzipToy id [] "n" false
        [(c3Rec, "fwC3", 413), (w1Rec, "fw1", 200)] 0 [] []).2, a.recIdx = 0 :=
  c6_dispatch_failure_aborts_run cfgW gzipToy id [] "n" 0 (c3Rec, "fwC3", 413)
    [(w1Rec, "fw1", 200)] [] [] c3Out "HTTP 413" (by rfl) (by rfl)
